import Mathlib

/-
Verification development for the somatic-instability analysis notebook
(Somatic_Instability_Analysis.ipynb).  The three source functions
`extract_files`, `exp_peak_subset` and `calc_instability_index` are embedded
as pure Lean functions over rational numbers.  Pandas dataframes are
modelled as lists of records; the dataframe integer index (which boolean
subsetting preserves) is modelled by pairing each record with its original
row position via `List.enum`.
-/

namespace SomaticInstability

/-- One row of a raw GeneMapper peak-table file, before projection.  Raw
exports carry more columns than the five retained ones; the extra columns
are modelled as an opaque list of strings. -/
structure RawRow where
  sampleFileName : String
  size : ℚ
  height : ℚ
  area : ℚ
  dataPoint : ℚ
  extraColumns : List String
deriving DecidableEq, Repr

/-- One row of an extracted peak table: the five columns kept by
`extract_files`, with the canonical names used in the notebook. -/
structure PeakRecord where
  Sample_Name : String
  Size : ℚ
  Height : ℚ
  Area : ℚ
  Data_Point : ℚ
deriving DecidableEq, Repr

/-- One row of a sample-key file: path of the raw peak table (column 0),
region label (column 1, used to overwrite the Sample_Name column),
analyst-verified modal peak height (column 2) and modal peak size
(column 3). -/
structure RegionDescriptor where
  sourcePath : String
  regionName : String
  modalHeight : ℚ
  modalSize : ℚ
deriving DecidableEq, Repr

/-- Embedding of `extract_files`: for each descriptor row, read the raw
table at column 0 of the sample key (the file system is modelled by the
oracle `read_csv`), keep the five required columns, rename them, and
overwrite the Sample_Name column uniformly with column 1 of the sample key.
Row order of each raw table is preserved by `List.map`. -/
def extract_files (sample_df : List RegionDescriptor) (read_csv : String → List RawRow) :
    List (List PeakRecord) :=
  sample_df.map (fun d =>
    (read_csv d.sourcePath).map (fun r =>
      { Sample_Name := d.regionName
        Size := r.size
        Height := r.height
        Area := r.area
        Data_Point := r.dataPoint }))

/-- The boolean selection predicate of `exp_peak_subset`:
`(Height >= modal_height * 0.01) & (Height <= modal_height) & (Size > modal_size)`. -/
def exp_peak_pred (modal_height modal_size : ℚ) (p : PeakRecord) : Bool :=
  decide (modal_height * 0.01 ≤ p.Height) &&
    decide (p.Height ≤ modal_height) &&
    decide (modal_size < p.Size)

/-- Embedding of the per-region body of `exp_peak_subset`: boolean-mask
subsetting of the extracted dataframe.  The subset keeps the original
dataframe index labels (modelled by `List.enum`), exactly as pandas does. -/
def exp_peak_subset_region (modal_height modal_size : ℚ) (rows : List PeakRecord) :
    List (ℕ × PeakRecord) :=
  rows.enum.filter (fun ip => exp_peak_pred modal_height modal_size ip.2)

/-- Embedding of `exp_peak_subset`: one filtered table per region, plus the
parallel list of modal heights. -/
def exp_peak_subset (sample_df : List RegionDescriptor)
    (extracted_files : List (List PeakRecord)) :
    List (List (ℕ × PeakRecord)) × List ℚ :=
  (List.zipWith (fun d rows => exp_peak_subset_region d.modalHeight d.modalSize rows)
      sample_df extracted_files,
    sample_df.map (fun d => d.modalHeight))

/-- Round-half-to-even to an integer, the tie-breaking rule of the Python
built-in `round`. -/
def roundHalfEven (x : ℚ) : ℤ :=
  let f : ℤ := ⌊x⌋
  if x - f < 1/2 then f
  else if 1/2 < x - f then f + 1
  else if f % 2 = 0 then f else f + 1

/-- Embedding of the Python call `round(x, 3)`. -/
def round3 (x : ℚ) : ℚ :=
  ((roundHalfEven (x * 1000) : ℤ) : ℚ) / 1000

/-- The quantity `height_sum[item]` of `calc_instability_index`:
`peak_subset_list[item].Height.sum() + modal_height[item]`. -/
def height_sum_region (subset : List (ℕ × PeakRecord)) (modal_height : ℚ) : ℚ :=
  (subset.map (fun ip => ip.2.Height)).sum + modal_height

/-- Running scan behind `Series.idxmax`: carry the best label and best
height seen so far; only a strictly larger height replaces the best, so the
label of the first occurrence of the maximum is kept. -/
def idxmaxGo (best_label : ℕ) (best_height : ℚ) : List (ℕ × PeakRecord) → ℕ
  | [] => best_label
  | ip :: rest =>
    if best_height < ip.2.Height then idxmaxGo ip.1 ip.2.Height rest
    else idxmaxGo best_label best_height rest

/-- Embedding of `peak_subset_list[item].Height.idxmax()`: the index label
of the first row attaining the maximum height.  Pandas raises on an empty
series; that case is represented by `none` (the source only evaluates
`idxmax` inside a loop over rows, hence on nonempty frames). -/
def pandas_idxmax : List (ℕ × PeakRecord) → Option ℕ
  | [] => none
  | ip :: rest => some (idxmaxGo ip.1 ip.2.Height rest)

/-- Embedding of
`peak_subset_list[item][peak_subset_list[item].Height == currentHeight].index.values[0]`:
boolean-mask the frame on height equality and take the first index label. -/
def code_current_index (subset : List (ℕ × PeakRecord)) (h : ℚ) : Option ℕ :=
  ((subset.filter (fun ip => decide (ip.2.Height = h))).head?).map (fun ip => ip.1)

/-- The `change_from_main` column written row by row:
`currentIndex - maxHeightIndex + 1`, with both indices being dataframe
labels.  The `getD 0` defaults are never reached when the subset is
nonempty, which is the only case in which this list is used. -/
def change_list (subset : List (ℕ × PeakRecord)) : List ℤ :=
  subset.map (fun ip =>
    ((code_current_index subset ip.2.Height).getD 0 : ℤ)
      - ((pandas_idxmax subset).getD 0 : ℤ) + 1)

/-- A per-region dataframe after `calc_instability_index` has run its
annotation loops.  `normalized_Height` is created by a whole-column
assignment, so it exists even for an empty frame; `change_from_main` and
`normalized_Peak` are created only by `.at` writes inside loops over the
rows, so on an empty frame those columns never come into existence, which
is modelled by `none`. -/
structure AnnotatedRegion where
  subset : List (ℕ × PeakRecord)
  normalized_Height : List ℚ
  change_from_main : Option (List ℤ)
  normalized_Peak : Option (List ℚ)
deriving Repr

/-- The annotation loops of `calc_instability_index` for one region:
`normalized_Height = round(Height/height_sum, 3)` columnwise, then per row
`change_from_main = currentIndex - maxHeightIndex + 1`, then per row
`normalized_Peak = round(normalized_Height * change_from_main, 3)`. -/
def annotate_region (subset : List (ℕ × PeakRecord)) (modal_height : ℚ) : AnnotatedRegion :=
  let t := height_sum_region subset modal_height
  let nh := subset.map (fun ip => round3 (ip.2.Height / t))
  if subset.isEmpty then
    { subset := subset, normalized_Height := nh,
      change_from_main := none, normalized_Peak := none }
  else
    let cfm := change_list subset
    let np := List.zipWith (fun (x : ℚ) (c : ℤ) => round3 (x * (c : ℚ))) nh cfm
    { subset := subset, normalized_Height := nh,
      change_from_main := some cfm, normalized_Peak := some np }

/-- The final loop body of `calc_instability_index`:
`round(peak_subset_list[item].normalized_Peak.sum(), 3)`.  Attribute access
on a column that was never created raises `AttributeError` in pandas, which
is modelled by `Except.error`. -/
def region_index (a : AnnotatedRegion) : Except String ℚ :=
  match a.normalized_Peak with
  | none => Except.error "AttributeError: normalized_Peak"
  | some np => Except.ok (round3 np.sum)

/-- The final loop of `calc_instability_index` over all regions; the first
missing column aborts the whole run, as an uncaught exception does. -/
def region_indices : List AnnotatedRegion → Except String (List ℚ)
  | [] => Except.ok []
  | a :: rest =>
    match region_index a with
    | Except.error e => Except.error e
    | Except.ok v =>
      match region_indices rest with
      | Except.error e => Except.error e
      | Except.ok vs => Except.ok (v :: vs)

/-- Embedding of `calc_instability_index`: annotate every region, then
collect one instability value per region; returns the annotated subsets
together with the parallel list of indices. -/
def calc_instability_index (peak_subset_list : List (List (ℕ × PeakRecord)))
    (modal_height : List ℚ) : Except String (List AnnotatedRegion × List ℚ) :=
  let annotated := List.zipWith annotate_region peak_subset_list modal_height
  match region_indices annotated with
  | Except.error e => Except.error e
  | Except.ok vs => Except.ok (annotated, vs)

/-- Row position, per the specification wording: the label of the first row
of the subset whose height equals the given height. -/
def spec_current_index (subset : List (ℕ × PeakRecord)) (h : ℚ) : Option ℕ :=
  (subset.find? (fun ip => decide (ip.2.Height = h))).map (fun ip => ip.1)

/-- The maximum height of a nonempty subset, per the specification wording. -/
def spec_max_height : List (ℕ × PeakRecord) → Option ℚ
  | [] => none
  | x :: xs => some ((xs.map (fun ip => ip.2.Height)).foldl max x.2.Height)

/-- Row position of the subset-local maximum-height peak, ties resolved to
the first row attaining the maximum. -/
def spec_max_index (subset : List (ℕ × PeakRecord)) : Option ℕ :=
  match spec_max_height subset with
  | none => none
  | some m => spec_current_index subset m

/-! ### General list lemmas -/

theorem filter_head?_eq_find? {α : Type*} (p : α → Bool) (l : List α) :
    (l.filter p).head? = l.find? p := by
  induction l with
  | nil => rfl
  | cons a t ih =>
    by_cases h : p a
    · simp [List.filter_cons, List.find?, h]
    · simp only [List.filter_cons, List.find?]
      rw [if_neg (by simp [h])]
      simp [h, ih]

theorem le_foldl_max (l : List ℚ) (b : ℚ) : b ≤ l.foldl max b := by
  induction l generalizing b with
  | nil => simp
  | cons a t ih => exact le_trans (le_max_left b a) (ih (max b a))

theorem mem_le_foldl_max (l : List ℚ) (b a : ℚ) (h : a ∈ l) : a ≤ l.foldl max b := by
  induction l generalizing b with
  | nil => simp at h
  | cons x t ih =>
    rcases List.mem_cons.mp h with rfl | hmem
    · exact le_trans (le_max_right b a) (le_foldl_max t (max b a))
    · exact ih (max b x) hmem

theorem foldl_max_attained (l : List ℚ) (b : ℚ) : l.foldl max b = b ∨ l.foldl max b ∈ l := by
  induction l generalizing b with
  | nil => simp
  | cons a t ih =>
    rcases ih (max b a) with h | h
    · rcases max_choice b a with hm | hm
      · left; rw [List.foldl, h, hm]
      · right; rw [List.foldl, h, hm]; exact List.mem_cons_self a t
    · right; exact List.mem_cons_of_mem a h

theorem getD_map_of_lt {α β : Type*} (f : α → β) (l : List α) (j : ℕ)
    (hj : j < l.length) (d : β) : (l.map f).getD j d = f (l.get ⟨j, hj⟩) := by
  rw [List.getD_eq_getElem _ _ (by simpa using hj)]
  exact @List.getElem_map _ _ f l j (by simpa using hj)

theorem getD_zipWith_of_lt {α β γ : Type*} (f : α → β → γ) (l₁ : List α) (l₂ : List β)
    (j : ℕ) (h₁ : j < l₁.length) (h₂ : j < l₂.length) (d : γ) :
    (List.zipWith f l₁ l₂).getD j d = f (l₁.get ⟨j, h₁⟩) (l₂.get ⟨j, h₂⟩) := by
  rw [List.getD_eq_getElem _ _ (by simp [List.length_zipWith]; omega)]
  exact @List.getElem_zipWith _ _ _ f l₁ l₂ j (by simp [List.length_zipWith]; omega)

theorem enumFrom_filter_snd {α : Type*} (q : α → Bool) (l : List α) : ∀ (n : ℕ),
    ((List.enumFrom n l).filter (fun ip => q ip.2)).map (fun ip => ip.2) = l.filter q := by
  induction l with
  | nil => intro n; rfl
  | cons a t ih =>
    intro n
    by_cases h : q a
    · simp only [List.enumFrom, List.filter_cons, h, if_pos]
      simp only [List.map_cons]
      rw [ih (n + 1)]
    · simp only [List.enumFrom, List.filter_cons, h]
      simp only [Bool.false_eq_true, if_false]
      rw [ih (n + 1)]

/-! ### Rounding lemmas -/

theorem roundHalfEven_intCast (n : ℤ) : roundHalfEven ((n : ℚ)) = n := by
  unfold roundHalfEven
  rw [Int.floor_intCast]
  rw [if_pos (by norm_num)]

theorem roundHalfEven_eq_low (x : ℚ) (n : ℤ) (h1 : (n : ℚ) ≤ x) (h2 : x - n < 1/2) :
    roundHalfEven x = n := by
  have hf : ⌊x⌋ = n := by
    rw [Int.floor_eq_iff]
    exact ⟨h1, by linarith⟩
  unfold roundHalfEven
  rw [hf, if_pos h2]

theorem roundHalfEven_eq_high (x : ℚ) (n : ℤ) (h1 : (n : ℚ) ≤ x) (h2 : 1/2 < x - n)
    (h3 : x < n + 1) : roundHalfEven x = n + 1 := by
  have hf : ⌊x⌋ = n := by
    rw [Int.floor_eq_iff]
    exact ⟨h1, by linarith⟩
  unfold roundHalfEven
  rw [hf, if_neg (by linarith), if_pos h2]

theorem round3_lo (x : ℚ) (n : ℤ) (h1 : (n : ℚ) ≤ 1000 * x) (h2 : 1000 * x - n < 1/2) :
    round3 x = (n : ℚ) / 1000 := by
  unfold round3
  rw [mul_comm x 1000, roundHalfEven_eq_low (1000 * x) n h1 h2]

theorem round3_hi (x : ℚ) (n : ℤ) (h1 : (n : ℚ) ≤ 1000 * x) (h2 : 1/2 < 1000 * x - n)
    (h3 : 1000 * x < n + 1) : round3 x = ((n : ℚ) + 1) / 1000 := by
  unfold round3
  rw [mul_comm x 1000, roundHalfEven_eq_high (1000 * x) n h1 h2 h3]
  push_cast
  ring

theorem round3_idem (x : ℚ) : round3 (round3 x) = round3 x := by
  conv_lhs => rw [round3]
  rw [round3, div_mul_cancel₀ _ (by norm_num : (1000 : ℚ) ≠ 0), roundHalfEven_intCast]

/-! ### The idxmax scan finds the first row attaining the maximum -/

theorem idxmaxGo_stay (l : List (ℕ × PeakRecord)) : ∀ (bi : ℕ) (bh : ℚ),
    (∀ ip ∈ l, ip.2.Height ≤ bh) → idxmaxGo bi bh l = bi := by
  induction l with
  | nil => intro bi bh _; rfl
  | cons x t ih =>
    intro bi bh h
    rw [idxmaxGo, if_neg (not_lt.mpr (h x (List.mem_cons_self x t)))]
    exact ih bi bh (fun ip hip => h ip (List.mem_cons_of_mem x hip))

theorem idxmaxGo_find (l : List (ℕ × PeakRecord)) : ∀ (bi : ℕ) (bh M : ℚ),
    (l.map (fun ip => ip.2.Height)).foldl max bh = M → bh < M →
    (l.find? (fun ip => decide (ip.2.Height = M))).map (fun ip => ip.1) =
      some (idxmaxGo bi bh l) := by
  induction l with
  | nil =>
    intro bi bh M hM hlt
    simp only [List.map_nil, List.foldl_nil] at hM
    exact absurd (hM ▸ hlt) (lt_irrefl M)
  | cons x t ih =>
    intro bi bh M hM hlt
    simp only [List.map_cons, List.foldl_cons] at hM
    by_cases hcmp : bh < x.2.Height
    · have hmax : max bh x.2.Height = x.2.Height := max_eq_right (le_of_lt hcmp)
      rw [hmax] at hM
      rw [idxmaxGo, if_pos hcmp]
      by_cases hxeq : x.2.Height = M
      · rw [List.find?_cons_of_pos _ (by simpa using hxeq)]
        have hstay : idxmaxGo x.1 x.2.Height t = x.1 := by
          refine idxmaxGo_stay t x.1 x.2.Height (fun ip hip => ?_)
          calc ip.2.Height ≤ (t.map (fun q => q.2.Height)).foldl max x.2.Height :=
                mem_le_foldl_max _ _ _ (List.mem_map_of_mem _ hip)
            _ = M := hM
            _ = x.2.Height := hxeq.symm
        rw [hstay]
        rfl
      · rw [List.find?_cons_of_neg _ (by simpa using hxeq)]
        have hxlt : x.2.Height < M :=
          lt_of_le_of_ne (hM ▸ le_foldl_max (t.map (fun q => q.2.Height)) x.2.Height) hxeq
        exact ih x.1 x.2.Height M hM hxlt
    · have hle : x.2.Height ≤ bh := le_of_not_lt hcmp
      have hmax : max bh x.2.Height = bh := max_eq_left hle
      rw [hmax] at hM
      have hxM : x.2.Height ≠ M := ne_of_lt (lt_of_le_of_lt hle hlt)
      rw [idxmaxGo, if_neg hcmp, List.find?_cons_of_neg _ (by simpa using hxM)]
      exact ih bi bh M hM hlt

theorem pandas_idxmax_eq_spec (s : List (ℕ × PeakRecord)) :
    pandas_idxmax s = spec_max_index s := by
  cases s with
  | nil => rfl
  | cons x t =>
    have hMdef : spec_max_index (x :: t) =
        spec_current_index (x :: t) ((t.map (fun ip => ip.2.Height)).foldl max x.2.Height) := rfl
    rw [pandas_idxmax, hMdef]
    by_cases hxeq : x.2.Height = (t.map (fun ip => ip.2.Height)).foldl max x.2.Height
    · have hstay : idxmaxGo x.1 x.2.Height t = x.1 := by
        refine idxmaxGo_stay t x.1 x.2.Height (fun ip hip => ?_)
        calc ip.2.Height ≤ (t.map (fun q => q.2.Height)).foldl max x.2.Height :=
              mem_le_foldl_max _ _ _ (List.mem_map_of_mem _ hip)
          _ = x.2.Height := hxeq.symm
      rw [hstay]
      unfold spec_current_index
      rw [List.find?_cons_of_pos _ (by simpa using hxeq)]
      rfl
    · have hxlt : x.2.Height < (t.map (fun ip => ip.2.Height)).foldl max x.2.Height :=
        lt_of_le_of_ne (le_foldl_max (t.map (fun ip => ip.2.Height)) x.2.Height) hxeq
      unfold spec_current_index
      rw [List.find?_cons_of_neg _ (by simpa using hxeq)]
      exact (idxmaxGo_find t x.1 x.2.Height _ rfl hxlt).symm

theorem code_current_index_eq_spec (s : List (ℕ × PeakRecord)) (h : ℚ) :
    code_current_index s h = spec_current_index s h := by
  unfold code_current_index spec_current_index
  rw [filter_head?_eq_find?]

/-! ### Unfolding lemmas for the annotation step -/

theorem annotate_region_normalized_Height (s : List (ℕ × PeakRecord)) (mh : ℚ) :
    (annotate_region s mh).normalized_Height =
      s.map (fun ip => round3 (ip.2.Height / height_sum_region s mh)) := by
  rw [annotate_region]
  by_cases h : s.isEmpty <;> simp [h]

theorem annotate_region_change_from_main (s : List (ℕ × PeakRecord)) (mh : ℚ)
    (hne : s ≠ []) :
    (annotate_region s mh).change_from_main = some (change_list s) := by
  rw [annotate_region, if_neg (by simpa [List.isEmpty_iff] using hne)]

theorem annotate_region_normalized_Peak (s : List (ℕ × PeakRecord)) (mh : ℚ)
    (hne : s ≠ []) :
    (annotate_region s mh).normalized_Peak =
      some (List.zipWith (fun (x : ℚ) (c : ℤ) => round3 (x * (c : ℚ)))
        (s.map (fun ip => round3 (ip.2.Height / height_sum_region s mh)))
        (change_list s)) := by
  rw [annotate_region, if_neg (by simpa [List.isEmpty_iff] using hne)]

theorem annotate_region_empty (mh : ℚ) :
    (annotate_region [] mh).change_from_main = none ∧
      (annotate_region [] mh).normalized_Peak = none := by
  constructor <;> rfl

theorem get_eq_getD {α : Type*} (l : List α) (j : ℕ) (hj : j < l.length) (d : α) :
    l.get ⟨j, hj⟩ = l.getD j d := by
  rw [List.getD_eq_getElem l d hj]
  exact List.get_eq_getElem l ⟨j, hj⟩

theorem change_list_getD (s : List (ℕ × PeakRecord)) (j : ℕ) (hj : j < s.length) :
    (change_list s).getD j 0 =
      (((spec_current_index s ((s.get ⟨j, hj⟩).2.Height)).getD 0 : ℕ) : ℤ)
        - (((spec_max_index s).getD 0 : ℕ) : ℤ) + 1 := by
  unfold change_list
  rw [getD_map_of_lt _ s j hj, code_current_index_eq_spec, pandas_idxmax_eq_spec]

theorem spec_max_height_of_dominant (s : List (ℕ × PeakRecord)) (j : ℕ) (hj : j < s.length)
    (hmax : ∀ ip ∈ s, ip.2.Height ≤ (s.get ⟨j, hj⟩).2.Height) :
    spec_max_height s = some ((s.get ⟨j, hj⟩).2.Height) := by
  cases s with
  | nil => simp at hj
  | cons x t =>
    unfold spec_max_height
    refine congrArg some (le_antisymm ?_ ?_)
    · rcases foldl_max_attained (t.map (fun ip => ip.2.Height)) x.2.Height with h | h
      · rw [h]; exact hmax x (List.mem_cons_self x t)
      · rcases List.mem_map.mp h with ⟨w, hwmem, hwh⟩
        rw [← hwh]; exact hmax w (List.mem_cons_of_mem x hwmem)
    · have hmem : (x :: t).get ⟨j, hj⟩ ∈ x :: t := List.get_mem _ _ _
      rcases List.mem_cons.mp hmem with heq | hmem2
      · rw [heq]; exact le_foldl_max _ _
      · exact mem_le_foldl_max _ _ _ (List.mem_map_of_mem _ hmem2)

/-- Claim C1.  For every nonempty expansion-peak subset and every row of it,
the annotated `change_from_main` equals `current_index - max_index + 1`,
where `max_index` is the label of the first row attaining the subset-local
maximum height and `current_index` is the label of the first row of the
subset whose height equals the height of the current row. -/
theorem change_from_main_formula (s : List (ℕ × PeakRecord)) (mh : ℚ)
    (hne : s ≠ []) (j : ℕ) (hj : j < s.length) :
    ∃ (cfm : List ℤ) (m c : ℕ),
      (annotate_region s mh).change_from_main = some cfm ∧
      spec_max_index s = some m ∧
      spec_current_index s ((s.get ⟨j, hj⟩).2.Height) = some c ∧
      cfm.getD j 0 = (c : ℤ) - (m : ℤ) + 1 := by
  have hm : (pandas_idxmax s).isSome := by
    cases s with
    | nil => exact absurd rfl hne
    | cons x t => rfl
  rcases Option.isSome_iff_exists.mp hm with ⟨m, hmeq⟩
  have hmspec : spec_max_index s = some m := by rw [← pandas_idxmax_eq_spec]; exact hmeq
  have hmem : s.get ⟨j, hj⟩ ∈ s := List.get_mem _ _ _
  have hfind : (s.find? (fun ip =>
      decide (ip.2.Height = (s.get ⟨j, hj⟩).2.Height))).isSome :=
    List.find?_isSome.mpr ⟨s.get ⟨j, hj⟩, hmem, by simp⟩
  rcases Option.isSome_iff_exists.mp hfind with ⟨w, hw⟩
  have hcspec : spec_current_index s ((s.get ⟨j, hj⟩).2.Height) = some w.1 := by
    unfold spec_current_index
    rw [hw]
    rfl
  refine ⟨change_list s, m, w.1,
    annotate_region_change_from_main s mh hne, hmspec, hcspec, ?_⟩
  rw [change_list_getD s j hj, hcspec, hmspec]
  rfl

/-- Claim C10.  Every row of a nonempty subset whose height attains the
subset maximum gets `change_from_main = 1`, so its `normalized_Peak` equals
its `normalized_Height`. -/
theorem max_peak_weight_one (s : List (ℕ × PeakRecord)) (mh : ℚ) (j : ℕ)
    (hj : j < s.length)
    (hmax : ∀ ip ∈ s, ip.2.Height ≤ (s.get ⟨j, hj⟩).2.Height) :
    ∃ (cfm : List ℤ) (np : List ℚ),
      (annotate_region s mh).change_from_main = some cfm ∧
      (annotate_region s mh).normalized_Peak = some np ∧
      cfm.getD j 0 = 1 ∧
      np.getD j 0 = (annotate_region s mh).normalized_Height.getD j 0 := by
  have hne : s ≠ [] := by
    intro heq
    rw [heq] at hj
    simp at hj
  have hMH : spec_max_index s = spec_current_index s ((s.get ⟨j, hj⟩).2.Height) := by
    unfold spec_max_index
    rw [spec_max_height_of_dominant s j hj hmax]
  have hone : (change_list s).getD j 0 = 1 := by
    rw [change_list_getD s j hj, hMH]
    omega
  have hlen_cfm : j < (change_list s).length := by
    unfold change_list
    simpa using hj
  have hcfm_get : (change_list s).get ⟨j, hlen_cfm⟩ = 1 := by
    rw [get_eq_getD (change_list s) j hlen_cfm 0]
    exact hone
  refine ⟨change_list s,
    List.zipWith (fun (ip : ℕ × PeakRecord) (c : ℤ) =>
        round3 (round3 (ip.2.Height / height_sum_region s mh) * (c : ℚ)))
      s (change_list s),
    annotate_region_change_from_main s mh hne, ?_, hone, ?_⟩
  · rw [annotate_region_normalized_Peak s mh hne, List.zipWith_map_left]
  · rw [getD_zipWith_of_lt _ s (change_list s) j hj hlen_cfm 0, hcfm_get,
      annotate_region_normalized_Height s mh,
      getD_map_of_lt (fun ip => round3 (ip.2.Height / height_sum_region s mh)) s j hj 0]
    push_cast
    rw [mul_one, round3_idem]

/-- Claim C6.  Rounding to three decimals is applied at every intermediate
step: the stored `normalized_Height` is `round3 (Height / total)`, the
stored `normalized_Peak` is `round3 (round3 (Height / total) * change)`,
and the instability index is `round3` of the sum of those values. -/
theorem rounding_each_step (s : List (ℕ × PeakRecord)) (mh : ℚ) (hne : s ≠ []) :
    ∃ cfm : List ℤ,
      (annotate_region s mh).change_from_main = some cfm ∧
      (annotate_region s mh).normalized_Height =
        s.map (fun ip => round3 (ip.2.Height / height_sum_region s mh)) ∧
      (annotate_region s mh).normalized_Peak =
        some (List.zipWith (fun (ip : ℕ × PeakRecord) (c : ℤ) =>
          round3 (round3 (ip.2.Height / height_sum_region s mh) * (c : ℚ))) s cfm) ∧
      region_index (annotate_region s mh) =
        Except.ok (round3 ((List.zipWith (fun (ip : ℕ × PeakRecord) (c : ℤ) =>
          round3 (round3 (ip.2.Height / height_sum_region s mh) * (c : ℚ)))
            s cfm).sum)) := by
  refine ⟨change_list s, annotate_region_change_from_main s mh hne,
    annotate_region_normalized_Height s mh, ?_, ?_⟩
  · rw [annotate_region_normalized_Peak s mh hne, List.zipWith_map_left]
  · unfold region_index
    rw [annotate_region_normalized_Peak s mh hne, List.zipWith_map_left]

theorem enum_filter_snd {α : Type*} (q : α → Bool) (l : List α) :
    ((l.enum.filter (fun ip => q ip.2)).map (fun ip => ip.2)) = l.filter q := by
  have h := enumFrom_filter_snd q l 0
  simpa [List.enum] using h

/-- Claim C5.  The total signal mass computed by the calculator equals the
modal height plus the sum of the heights of the peaks selected by the
expansion predicate, for every region including those with empty subsets. -/
theorem total_signal_mass_eq (mh ms : ℚ) (rows : List PeakRecord) :
    height_sum_region (exp_peak_subset_region mh ms rows) mh =
      mh + ((rows.filter (fun p => exp_peak_pred mh ms p)).map (fun p => p.Height)).sum := by
  unfold height_sum_region exp_peak_subset_region
  rw [add_comm]
  congr 1
  have h2 : (((rows.enum.filter (fun ip => exp_peak_pred mh ms ip.2)).map
      (fun ip => ip.2)).map (fun p => p.Height)) =
      (rows.enum.filter (fun ip => exp_peak_pred mh ms ip.2)).map
        (fun ip => ip.2.Height) := by
    rw [List.map_map]
    rfl
  rw [← h2, enum_filter_snd (fun p => exp_peak_pred mh ms p) rows]

/-- Claim C4.  A peak row is selected as expansion candidate exactly when
`height >= 0.01 * modal_height`, `height <= modal_height` and
`size > modal_size`; both height bounds are inclusive and the size bound is
strict. -/
theorem selection_predicate_iff (mh ms : ℚ) (rows : List PeakRecord) (i : ℕ)
    (p : PeakRecord) (hmem : (i, p) ∈ rows.enum) :
    ((i, p) ∈ exp_peak_subset_region mh ms rows ↔
        (0.01 * mh ≤ p.Height ∧ p.Height ≤ mh ∧ ms < p.Size)) ∧
    (p.Height = mh → 0.01 * mh ≤ p.Height → ms < p.Size →
        (i, p) ∈ exp_peak_subset_region mh ms rows) ∧
    (p.Height = 0.01 * mh → p.Height ≤ mh → ms < p.Size →
        (i, p) ∈ exp_peak_subset_region mh ms rows) ∧
    (p.Size = ms → (i, p) ∉ exp_peak_subset_region mh ms rows) := by
  have hiff0 : (i, p) ∈ exp_peak_subset_region mh ms rows ↔
      (mh * 0.01 ≤ p.Height ∧ p.Height ≤ mh ∧ ms < p.Size) := by
    unfold exp_peak_subset_region
    rw [List.mem_filter]
    simp [exp_peak_pred, hmem, and_assoc]
  have hiff : (i, p) ∈ exp_peak_subset_region mh ms rows ↔
      (0.01 * mh ≤ p.Height ∧ p.Height ≤ mh ∧ ms < p.Size) := by
    rw [mul_comm 0.01 mh]
    exact hiff0
  refine ⟨hiff, ?_, ?_, ?_⟩
  · intro h1 h2 h3
    exact hiff.mpr ⟨h2, le_of_eq h1, h3⟩
  · intro h1 h2 h3
    exact hiff.mpr ⟨le_of_eq h1.symm, h2, h3⟩
  · intro h1 hin
    have hlt := (hiff.mp hin).2.2
    rw [h1] at hlt
    exact lt_irrefl ms hlt

/-- Claim C8.  The whole normalization, weighting and summation pipeline is
a deterministic function of its input: two runs on equal frozen inputs
return identical annotated subsets and identical instability indices. -/
theorem calc_deterministic (s1 s2 : List (List (ℕ × PeakRecord))) (m1 m2 : List ℚ)
    (hs : s1 = s2) (hm : m1 = m2) :
    calc_instability_index s1 m1 = calc_instability_index s2 m2 := by
  rw [hs, hm]

/-- Claim C9.  The extractor returns one table per descriptor, index
aligned; each output table has one row per raw row in the same order,
keeps exactly the five canonical fields, and carries the descriptor label
in Sample_Name regardless of the sample-file-name stored in the raw file. -/
theorem extract_files_spec (ds : List RegionDescriptor) (read_csv : String → List RawRow) :
    (extract_files ds read_csv).length = ds.length ∧
    ∀ (i : ℕ) (hi : i < ds.length) (hi2 : i < (extract_files ds read_csv).length),
      ((extract_files ds read_csv).get ⟨i, hi2⟩).length =
        (read_csv ((ds.get ⟨i, hi⟩).sourcePath)).length ∧
      ∀ (j : ℕ) (hj2 : j < ((extract_files ds read_csv).get ⟨i, hi2⟩).length)
        (hj : j < (read_csv ((ds.get ⟨i, hi⟩).sourcePath)).length),
        ((extract_files ds read_csv).get ⟨i, hi2⟩).get ⟨j, hj2⟩ =
          { Sample_Name := (ds.get ⟨i, hi⟩).regionName
            Size := ((read_csv ((ds.get ⟨i, hi⟩).sourcePath)).get ⟨j, hj⟩).size
            Height := ((read_csv ((ds.get ⟨i, hi⟩).sourcePath)).get ⟨j, hj⟩).height
            Area := ((read_csv ((ds.get ⟨i, hi⟩).sourcePath)).get ⟨j, hj⟩).area
            Data_Point := ((read_csv ((ds.get ⟨i, hi⟩).sourcePath)).get ⟨j, hj⟩).dataPoint } := by
  constructor
  · simp [extract_files]
  · intro i hi hi2
    constructor
    · simp [extract_files, List.get_eq_getElem, List.getElem_map]
    · intro j hj2 hj
      simp [extract_files, List.get_eq_getElem, List.getElem_map]

/-! ### Concrete region from the reference scenario: modal height 1000,
modal size 180, peaks (185, 50), (190, 20), (195, 5) -/

def sr1 : PeakRecord :=
  { Sample_Name := "HTT", Size := 185, Height := 50, Area := 0, Data_Point := 0 }

def sr2 : PeakRecord :=
  { Sample_Name := "HTT", Size := 190, Height := 20, Area := 0, Data_Point := 0 }

def sr3 : PeakRecord :=
  { Sample_Name := "HTT", Size := 195, Height := 5, Area := 0, Data_Point := 0 }

def scenarioRows : List PeakRecord := [sr1, sr2, sr3]

theorem scenario_subset_eval :
    exp_peak_subset_region 1000 180 scenarioRows = [(0, sr1), (1, sr2)] := by
  have hp1 : exp_peak_pred 1000 180 sr1 = true := by
    simp only [exp_peak_pred, sr1, Bool.and_eq_true, decide_eq_true_eq]
    norm_num
  have hp2 : exp_peak_pred 1000 180 sr2 = true := by
    simp only [exp_peak_pred, sr2, Bool.and_eq_true, decide_eq_true_eq]
    norm_num
  have hlow : ¬ ((1000 : ℚ) * 0.01 ≤ 5) := by norm_num
  have hp3 : exp_peak_pred 1000 180 sr3 = false := by
    simp [exp_peak_pred, sr3, hlow]
  have he : scenarioRows.enum = [(0, sr1), (1, sr2), (2, sr3)] := by
    simp [scenarioRows, List.enum]
  unfold exp_peak_subset_region
  rw [he]
  simp [List.filter_cons, hp1, hp2, hp3]

theorem scenario_mass_lit : height_sum_region [(0, sr1), (1, sr2)] 1000 = 1070 := by
  simp only [height_sum_region, List.map_cons, List.map_nil, List.sum_cons, List.sum_nil,
    sr1, sr2]
  norm_num

theorem scenario_mass_eval :
    height_sum_region (exp_peak_subset_region 1000 180 scenarioRows) 1000 = 1070 := by
  rw [scenario_subset_eval]
  exact scenario_mass_lit

theorem scenario_nh_lit :
    (annotate_region [(0, sr1), (1, sr2)] 1000).normalized_Height = [47/1000, 19/1000] := by
  have hr1 : round3 ((50 : ℚ)/1070) = 47/1000 := by
    rw [round3_hi ((50 : ℚ)/1070) 46 (by norm_num) (by norm_num) (by norm_num)]
    norm_num
  have hr2 : round3 ((20 : ℚ)/1070) = 19/1000 := by
    rw [round3_hi ((20 : ℚ)/1070) 18 (by norm_num) (by norm_num) (by norm_num)]
    norm_num
  rw [annotate_region_normalized_Height, scenario_mass_lit]
  simp only [List.map_cons, List.map_nil, sr1, sr2]
  rw [hr1, hr2]

theorem scenario_nh_eval :
    (annotate_region (exp_peak_subset_region 1000 180 scenarioRows) 1000).normalized_Height =
      [47/1000, 19/1000] := by
  rw [scenario_subset_eval]
  exact scenario_nh_lit

theorem scenario_cfm_lit :
    (annotate_region [(0, sr1), (1, sr2)] 1000).change_from_main = some [1, 2] := by
  rw [annotate_region_change_from_main [(0, sr1), (1, sr2)] 1000 (by simp)]
  have hcl : change_list [(0, sr1), (1, sr2)] = [1, 2] := by decide
  rw [hcl]

theorem scenario_cfm_eval :
    (annotate_region (exp_peak_subset_region 1000 180 scenarioRows) 1000).change_from_main =
      some [1, 2] := by
  rw [scenario_subset_eval]
  exact scenario_cfm_lit

theorem scenario_np_lit :
    (annotate_region [(0, sr1), (1, sr2)] 1000).normalized_Peak =
      some [47/1000, 38/1000] := by
  have hcl : change_list [(0, sr1), (1, sr2)] = [1, 2] := by decide
  have hq1 : round3 ((47 : ℚ)/1000 * ((1 : ℤ) : ℚ)) = 47/1000 := by
    rw [show ((47 : ℚ)/1000 * ((1 : ℤ) : ℚ)) = 47/1000 by push_cast; ring]
    rw [round3_lo ((47 : ℚ)/1000) 47 (by norm_num) (by norm_num)]
    norm_num
  have hq2 : round3 ((19 : ℚ)/1000 * ((2 : ℤ) : ℚ)) = 38/1000 := by
    rw [show ((19 : ℚ)/1000 * ((2 : ℤ) : ℚ)) = 38/1000 by push_cast; ring]
    rw [round3_lo ((38 : ℚ)/1000) 38 (by norm_num) (by norm_num)]
    norm_num
  have hnh := scenario_nh_lit
  rw [annotate_region_normalized_Height, scenario_mass_lit] at hnh
  rw [annotate_region_normalized_Peak [(0, sr1), (1, sr2)] 1000 (by simp),
    scenario_mass_lit, hcl, hnh]
  simp only [List.zipWith_cons_cons, List.zipWith_nil_right, List.zipWith_nil_left]
  rw [hq1, hq2]

theorem scenario_np_eval :
    (annotate_region (exp_peak_subset_region 1000 180 scenarioRows) 1000).normalized_Peak =
      some [47/1000, 38/1000] := by
  rw [scenario_subset_eval]
  exact scenario_np_lit

theorem region_index_some (a : AnnotatedRegion) (l : List ℚ)
    (h : a.normalized_Peak = some l) : region_index a = Except.ok (round3 l.sum) := by
  unfold region_index
  rw [h]

theorem scenario_index_eval :
    region_index (annotate_region (exp_peak_subset_region 1000 180 scenarioRows) 1000) =
      Except.ok (85/1000) := by
  rw [region_index_some _ _ scenario_np_eval]
  have hsum : ([47/1000, 38/1000] : List ℚ).sum = 85/1000 := by
    simp only [List.sum_cons, List.sum_nil]
    norm_num
  have hr : round3 ((85 : ℚ)/1000) = 85/1000 := by
    rw [round3_lo ((85 : ℚ)/1000) 85 (by norm_num) (by norm_num)]
    norm_num
  rw [hsum, hr]

/-- Claim C3, corrected values.  On the reference scenario the third peak
(height 5) fails the lower height bound 0.01 * 1000 = 10, so only the first
two peaks are selected; the total mass is 1070, the normalized heights are
0.047 and 0.019, the change_from_main values are 1 and 2 (labels 0 and 1
minus the max label 0, plus 1), the normalized peaks are 0.047 and 0.038,
and the instability index is 0.085. -/
theorem scenario_values :
    exp_peak_subset_region 1000 180 scenarioRows = [(0, sr1), (1, sr2)] ∧
    height_sum_region (exp_peak_subset_region 1000 180 scenarioRows) 1000 = 1070 ∧
    (annotate_region (exp_peak_subset_region 1000 180 scenarioRows) 1000).normalized_Height =
      [47/1000, 19/1000] ∧
    (annotate_region (exp_peak_subset_region 1000 180 scenarioRows) 1000).change_from_main =
      some [1, 2] ∧
    (annotate_region (exp_peak_subset_region 1000 180 scenarioRows) 1000).normalized_Peak =
      some [47/1000, 38/1000] ∧
    region_index (annotate_region (exp_peak_subset_region 1000 180 scenarioRows) 1000) =
      Except.ok (85/1000) :=
  ⟨scenario_subset_eval, scenario_mass_eval, scenario_nh_eval, scenario_cfm_eval,
    scenario_np_eval, scenario_index_eval⟩

/-- Claim C3, counterexample to the stated values.  On the reference
scenario the code does not select all three peaks, the total mass is not
1075, change_from_main is not [1, 0, -1], and the returned instability
index is not 0.042. -/
theorem scenario_counterexample :
    (exp_peak_subset_region 1000 180 scenarioRows).length ≠ 3 ∧
    height_sum_region (exp_peak_subset_region 1000 180 scenarioRows) 1000 ≠ 1075 ∧
    (annotate_region (exp_peak_subset_region 1000 180 scenarioRows) 1000).change_from_main ≠
      some [1, 0, -1] ∧
    region_index (annotate_region (exp_peak_subset_region 1000 180 scenarioRows) 1000) ≠
      Except.ok (42/1000) := by
  refine ⟨?_, ?_, ?_, ?_⟩
  · rw [scenario_subset_eval]
    decide
  · rw [scenario_mass_eval]
    norm_num
  · rw [scenario_cfm_eval]
    decide
  · rw [scenario_index_eval]
    simp only [ne_eq, Except.ok.injEq]
    norm_num

/-! ### Empty subsets -/

/-- Claim C2, behaviour of the code at an empty subset.  The total signal
mass degenerates to the modal height and no rows are annotated, as the
specification says, but the run then aborts with an AttributeError instead
of returning an index of 0, because the normalized_Peak column was never
created. -/
theorem calc_empty_subset_raises :
    calc_instability_index [[]] [1000] =
      Except.error "AttributeError: normalized_Peak" ∧
    height_sum_region [] 1000 = 1000 ∧
    (annotate_region [] 1000).change_from_main = none ∧
    (annotate_region [] 1000).normalized_Peak = none := by
  refine ⟨rfl, ?_, rfl, rfl⟩
  simp [height_sum_region]

/-- Claim C7, counterexample.  With modal height 0 and an empty subset the
calculator does fail, but with the AttributeError of the missing
normalized_Peak column; no DegenerateInputError guard exists in the code. -/
theorem degenerate_counterexample :
    calc_instability_index [[]] [0] = Except.error "AttributeError: normalized_Peak" ∧
    (Except.error "AttributeError: normalized_Peak" :
        Except String (List AnnotatedRegion × List ℚ)) ≠
      Except.error "DegenerateInputError" := by
  refine ⟨rfl, ?_⟩
  simp only [ne_eq, Except.error.injEq]
  decide

/-- Claim C7, amended.  On the degenerate region the calculator never
returns a numeric result (so no NaN or infinity is propagated); it aborts
with the AttributeError raised by the empty-subset code path. -/
theorem degenerate_fails_without_result :
    (calc_instability_index [[]] [0]).isOk = false ∧
    calc_instability_index [[]] [0] = Except.error "AttributeError: normalized_Peak" :=
  ⟨rfl, rfl⟩

/-! ### Witness instantiations -/

/-- Witness for claim C1 at the one-row subset [(0, sr1)] with modal
height 3. -/
theorem change_from_main_formula_witness :
    ∃ (cfm : List ℤ) (m c : ℕ),
      (annotate_region [((0 : ℕ), sr1)] 3).change_from_main = some cfm ∧
      spec_max_index [((0 : ℕ), sr1)] = some m ∧
      spec_current_index [((0 : ℕ), sr1)]
        ((([((0 : ℕ), sr1)]).get ⟨0, by simp⟩).2.Height) = some c ∧
      cfm.getD 0 0 = (c : ℤ) - (m : ℤ) + 1 :=
  change_from_main_formula [((0 : ℕ), sr1)] 3 (by simp) 0 (by simp)

/-- Witness for claim C10 at the one-row subset [(0, sr1)] with modal
height 3. -/
theorem max_peak_weight_one_witness :
    ∃ (cfm : List ℤ) (np : List ℚ),
      (annotate_region [((0 : ℕ), sr1)] 3).change_from_main = some cfm ∧
      (annotate_region [((0 : ℕ), sr1)] 3).normalized_Peak = some np ∧
      cfm.getD 0 0 = 1 ∧
      np.getD 0 0 = (annotate_region [((0 : ℕ), sr1)] 3).normalized_Height.getD 0 0 :=
  max_peak_weight_one [((0 : ℕ), sr1)] 3 0 (by simp) (by simp)

/-- Witness for claim C6 at the one-row subset [(0, sr1)] with modal
height 3. -/
theorem rounding_each_step_witness :
    ∃ cfm : List ℤ,
      (annotate_region [((0 : ℕ), sr1)] 3).change_from_main = some cfm ∧
      (annotate_region [((0 : ℕ), sr1)] 3).normalized_Height =
        ([((0 : ℕ), sr1)]).map (fun ip =>
          round3 (ip.2.Height / height_sum_region [((0 : ℕ), sr1)] 3)) ∧
      (annotate_region [((0 : ℕ), sr1)] 3).normalized_Peak =
        some (List.zipWith (fun (ip : ℕ × PeakRecord) (c : ℤ) =>
          round3 (round3 (ip.2.Height / height_sum_region [((0 : ℕ), sr1)] 3) * (c : ℚ)))
            [((0 : ℕ), sr1)] cfm) ∧
      region_index (annotate_region [((0 : ℕ), sr1)] 3) =
        Except.ok (round3 ((List.zipWith (fun (ip : ℕ × PeakRecord) (c : ℤ) =>
          round3 (round3 (ip.2.Height / height_sum_region [((0 : ℕ), sr1)] 3) * (c : ℚ)))
            [((0 : ℕ), sr1)] cfm).sum)) :=
  rounding_each_step [((0 : ℕ), sr1)] 3 (by simp)

/-- Witness for claim C4 at the one-row table [sr1] with modal height 1000
and modal size 180. -/
theorem selection_predicate_iff_witness :
    (((0 : ℕ), sr1) ∈ exp_peak_subset_region 1000 180 [sr1] ↔
        (0.01 * 1000 ≤ sr1.Height ∧ sr1.Height ≤ 1000 ∧ 180 < sr1.Size)) ∧
    (sr1.Height = 1000 → 0.01 * 1000 ≤ sr1.Height → 180 < sr1.Size →
        ((0 : ℕ), sr1) ∈ exp_peak_subset_region 1000 180 [sr1]) ∧
    (sr1.Height = 0.01 * 1000 → sr1.Height ≤ 1000 → 180 < sr1.Size →
        ((0 : ℕ), sr1) ∈ exp_peak_subset_region 1000 180 [sr1]) ∧
    (sr1.Size = 180 → ((0 : ℕ), sr1) ∉ exp_peak_subset_region 1000 180 [sr1]) :=
  selection_predicate_iff 1000 180 [sr1] 0 sr1 (by simp [List.enum])

/-- Witness for claim C8 at a concrete frozen input. -/
theorem calc_deterministic_witness :
    calc_instability_index [[((0 : ℕ), sr1)]] [3] =
      calc_instability_index [[((0 : ℕ), sr1)]] [3] :=
  calc_deterministic [[((0 : ℕ), sr1)]] [[((0 : ℕ), sr1)]] [3] [3] rfl rfl

def wDescriptor : RegionDescriptor :=
  { sourcePath := "Input/sample.txt", regionName := "R1", modalHeight := 100, modalSize := 20 }

def wRaw : RawRow :=
  { sampleFileName := "machine_label", size := 25, height := 60, area := 2, dataPoint := 3,
    extraColumns := ["unused"] }

def wReader : String → List RawRow := fun _ => [wRaw]

/-- Witness for claim C9 at a one-descriptor, one-row input: the extracted
row keeps the five fields and carries the descriptor label, not the
sample-file-name of the raw file. -/
theorem extract_files_spec_witness :
    ((extract_files [wDescriptor] wReader).get ⟨0, by simp [extract_files]⟩).get
        ⟨0, by simp [extract_files, wReader]⟩ =
      { Sample_Name := "R1", Size := 25, Height := 60, Area := 2, Data_Point := 3 } := by
  have H := extract_files_spec [wDescriptor] wReader
  exact ((H.2 0 (by simp) (by simp [extract_files])).2 0
    (by simp [extract_files, wReader]) (by simp [wReader]))

end SomaticInstability
